import Mathlib

/-
Verification development for the FastRouter Python SDK.
Shallow embedding of src/fastrouter/{client,chat,exceptions,response_models}.py:
JSON values, Python dict operations, the json.loads fragment the SDK relies on,
the response models, the request/response classification in FastRouter._make_request,
the payload builder in Completions.create, and the SSE streaming decoder in
StreamingChatCompletion._parse_stream.
-/

/-- JSON values as decoded by Python's json module.  Objects keep insertion
order, as Python dicts do.  Numbers are restricted to integers in this
embedding: none of the verified properties depends on fractional numbers. -/
inductive Json where
  | null : Json
  | bool (b : Bool) : Json
  | num (n : Int) : Json
  | str (s : String) : Json
  | arr (elems : List Json) : Json
  | obj (fields : List (String × Json)) : Json

/-- Double-quote character (written via its code point). -/
def quoteCh : Char := Char.ofNat 34

/-- Backslash character. -/
def backslashCh : Char := Char.ofNat 92

/-- Opening curly brace character. -/
def lbraceCh : Char := Char.ofNat 123

/-- Closing curly brace character. -/
def rbraceCh : Char := Char.ofNat 125

/-- Single-quote character. -/
def apostCh : Char := Char.ofNat 39

/-- Whitespace characters recognized by Python str.strip and the json module. -/
def pyWs (c : Char) : Bool := c = ' ' || c = '\t' || c = '\n' || c = '\r'

/-- Model of Python str.strip (on the character list). -/
def stripChars (cs : List Char) : List Char :=
  ((cs.dropWhile pyWs).reverse.dropWhile pyWs).reverse

/-- Model of Python str.strip. -/
def pyStrip (s : String) : String := String.mk (stripChars s.data)

/-- Decides whether the first list is a prefix of the second. -/
def listPre : List Char → List Char → Bool
  | [], _ => true
  | _ :: _, [] => false
  | a :: as, b :: bs => a = b && listPre as bs

/-- Decides whether the first list occurs as a contiguous sublist of the second. -/
def listSub (needle : List Char) : List Char → Bool
  | [] => listPre needle []
  | c :: rest => listPre needle (c :: rest) || listSub needle rest

/-- Model of Python str.startswith. -/
def pyStartsWith (s pre : String) : Bool := listPre pre.data s.data

/-- Model of Python slicing s[n:] (by code points). -/
def pyDrop (s : String) (n : Nat) : String := String.mk (s.data.drop n)

/-- Lookup in a Python dict modelled as an insertion-ordered association list. -/
def dictGet {α : Type} : List (String × α) → String → Option α
  | [], _ => none
  | (k2, v) :: rest, k => if k2 = k then some v else dictGet rest k

/-- Model of Python dict.get with a default. -/
def dictGetD {α : Type} (d : List (String × α)) (k : String) (dflt : α) : α :=
  (dictGet d k).getD dflt

/-- Model of the Python `k in d` membership test. -/
def dictHasKey {α : Type} (d : List (String × α)) (k : String) : Bool :=
  (dictGet d k).isSome

/-- Model of Python dict assignment d[k] = v: replace in place if the key
exists (keeping its position), else append. -/
def dictInsert {α : Type} (d : List (String × α)) (k : String) (v : α) :
    List (String × α) :=
  if dictHasKey d k then d.map (fun p => if p.1 = k then (k, v) else p)
  else d ++ [(k, v)]

/-- Model of Python dict.update: insert every pair of the second dict in order. -/
def dictUpdate {α : Type} (d e : List (String × α)) : List (String × α) :=
  e.foldl (fun acc p => dictInsert acc p.1 p.2) d

/-- Python truthiness of a decoded JSON value. -/
def pyTruthy : Json → Bool
  | .null => false
  | .bool b => b
  | .num n => n != 0
  | .str s => s != ""
  | .arr xs => !xs.isEmpty
  | .obj fs => !fs.isEmpty

/-- Model of Python repr of a string (the quoting and escaping used when a
string appears inside the repr of a container).  Covers printable input;
control characters beyond tab/newline/return are passed through. -/
def pyReprStr (s : String) : String :=
  let hasApo := s.data.any (· = apostCh)
  let hasQuote := s.data.any (· = quoteCh)
  let q := if hasApo && !hasQuote then quoteCh else apostCh
  let esc := s.data.foldr (fun c acc =>
    if c = backslashCh then backslashCh :: backslashCh :: acc
    else if c = q then backslashCh :: c :: acc
    else if c = '\n' then backslashCh :: 'n' :: acc
    else if c = '\t' then backslashCh :: 't' :: acc
    else if c = '\r' then backslashCh :: 'r' :: acc
    else c :: acc) []
  String.mk (q :: esc ++ [q])

mutual

/-- Model of Python repr of a decoded JSON value. -/
def pyRepr : Json → String
  | .null => "None"
  | .bool true => "True"
  | .bool false => "False"
  | .num n => toString n
  | .str s => pyReprStr s
  | .arr xs => "[" ++ pyReprList xs ++ "]"
  | .obj fs => String.singleton lbraceCh ++ pyReprFields fs ++ String.singleton rbraceCh

/-- Comma-separated reprs of list elements. -/
def pyReprList : List Json → String
  | [] => ""
  | [x] => pyRepr x
  | x :: y :: rest => pyRepr x ++ ", " ++ pyReprList (y :: rest)

/-- Comma-separated reprs of dict entries. -/
def pyReprFields : List (String × Json) → String
  | [] => ""
  | [(k, v)] => pyReprStr k ++ ": " ++ pyRepr v
  | (k, v) :: p :: rest => pyReprStr k ++ ": " ++ pyRepr v ++ ", " ++ pyReprFields (p :: rest)

end

/-- Model of Python str() applied to a decoded JSON value: a string is
returned as itself, every other value via its repr. -/
def pyStr : Json → String
  | .str s => s
  | j => pyRepr j

/-- Digit test for the JSON number grammar. -/
def isDigitCh (c : Char) : Bool := '0' ≤ c && c ≤ '9'

/-- Numeric value of a hexadecimal digit (code points 48-57, 97-102, 65-70). -/
def hexVal (c : Char) : Option Nat :=
  let n := c.toNat
  if 48 ≤ n ∧ n ≤ 57 then some (n - 48)
  else if 97 ≤ n ∧ n ≤ 102 then some (n - 87)
  else if 65 ≤ n ∧ n ≤ 70 then some (n - 55)
  else none

/-- Parses the body of a JSON string literal after the opening quote,
returning the decoded characters and the input remaining after the
closing quote. -/
def parseStringBody : List Char → Option (List Char × List Char)
  | [] => none
  | c :: rest =>
    if c = quoteCh then some ([], rest)
    else if c = backslashCh then
      match rest with
      | [] => none
      | e :: rest2 =>
        if e = quoteCh || e = backslashCh || e = '/' then
          (parseStringBody rest2).map (fun p => (e :: p.1, p.2))
        else if e = 'n' then (parseStringBody rest2).map (fun p => ('\n' :: p.1, p.2))
        else if e = 't' then (parseStringBody rest2).map (fun p => ('\t' :: p.1, p.2))
        else if e = 'r' then (parseStringBody rest2).map (fun p => ('\r' :: p.1, p.2))
        else if e = 'b' then (parseStringBody rest2).map (fun p => (Char.ofNat 8 :: p.1, p.2))
        else if e = 'f' then (parseStringBody rest2).map (fun p => (Char.ofNat 12 :: p.1, p.2))
        else if e = 'u' then
          match rest2 with
          | h1 :: h2 :: h3 :: h4 :: rest3 =>
            match hexVal h1, hexVal h2, hexVal h3, hexVal h4 with
            | some a, some b2, some c2, some d2 =>
              (parseStringBody rest3).map
                (fun p => (Char.ofNat (((a * 16 + b2) * 16 + c2) * 16 + d2) :: p.1, p.2))
            | _, _, _, _ => none
          | _ => none
        else none
    else (parseStringBody rest).map (fun p => (c :: p.1, p.2))

/-- Folds a digit list into a natural number. -/
def digitsToNat (ds : List Char) : Nat :=
  ds.foldl (fun acc c => acc * 10 + (c.toNat - '0'.toNat)) 0

/-- Parses a JSON integer literal (optional minus, digits, no leading zeros).
Fractional and exponent forms are outside this embedding and are rejected. -/
def parseNumber (cs : List Char) : Option (Json × List Char) :=
  let (neg, cs1) :=
    match cs with
    | c :: rest => if c = '-' then (true, rest) else (false, cs)
    | [] => (false, cs)
  let ds := cs1.takeWhile isDigitCh
  let rest := cs1.drop ds.length
  if ds.isEmpty then none
  else if ds.length > 1 && ds.headD '0' = '0' then none
  else
    match rest with
    | c :: _ =>
      if c = '.' || c = 'e' || c = 'E' then none
      else some (Json.num (if neg then -(digitsToNat ds : Int) else (digitsToNat ds : Int)), rest)
    | [] => some (Json.num (if neg then -(digitsToNat ds : Int) else (digitsToNat ds : Int)), [])

/-- Skips JSON whitespace. -/
def skipWs (cs : List Char) : List Char := cs.dropWhile pyWs

mutual

/-- Fueled recursive-descent parser for one JSON value, modelling json.loads. -/
def parseVal : Nat → List Char → Option (Json × List Char)
  | 0, _ => none
  | fuel + 1, cs =>
    match skipWs cs with
    | [] => none
    | c :: rest =>
      if c = lbraceCh then parseObjRest fuel rest
      else if c = '[' then parseArrRest fuel rest
      else if c = quoteCh then
        (parseStringBody rest).map (fun p => (Json.str (String.mk p.1), p.2))
      else if c = 't' then
        if listPre ['r', 'u', 'e'] rest then some (Json.bool true, rest.drop 3) else none
      else if c = 'f' then
        if listPre ['a', 'l', 's', 'e'] rest then some (Json.bool false, rest.drop 4) else none
      else if c = 'n' then
        if listPre ['u', 'l', 'l'] rest then some (Json.null, rest.drop 3) else none
      else parseNumber (c :: rest)

/-- Parses the remainder of a JSON object after the opening brace. -/
def parseObjRest : Nat → List Char → Option (Json × List Char)
  | 0, _ => none
  | fuel + 1, cs =>
    match skipWs cs with
    | c :: rest =>
      if c = rbraceCh then some (Json.obj [], rest)
      else parseMembers fuel [] (c :: rest)
    | [] => none

/-- Parses the members of a JSON object; duplicate keys keep the last value,
as Python dict construction does. -/
def parseMembers : Nat → List (String × Json) → List Char → Option (Json × List Char)
  | 0, _, _ => none
  | fuel + 1, acc, cs =>
    match skipWs cs with
    | c :: rest =>
      if c = quoteCh then
        match parseStringBody rest with
        | some (keyChars, rest2) =>
          match skipWs rest2 with
          | c2 :: rest3 =>
            if c2 = ':' then
              match parseVal fuel rest3 with
              | some (v, rest4) =>
                let acc2 := dictInsert acc (String.mk keyChars) v
                match skipWs rest4 with
                | c3 :: rest5 =>
                  if c3 = ',' then parseMembers fuel acc2 rest5
                  else if c3 = rbraceCh then some (Json.obj acc2, rest5)
                  else none
                | [] => none
              | none => none
            else none
          | [] => none
        | none => none
      else none
    | [] => none

/-- Parses the remainder of a JSON array after the opening bracket. -/
def parseArrRest : Nat → List Char → Option (Json × List Char)
  | 0, _ => none
  | fuel + 1, cs =>
    match skipWs cs with
    | c :: rest =>
      if c = ']' then some (Json.arr [], rest)
      else parseElems fuel [] (c :: rest)
    | [] => none

/-- Parses the elements of a JSON array. -/
def parseElems : Nat → List Json → List Char → Option (Json × List Char)
  | 0, _, _ => none
  | fuel + 1, acc, cs =>
    match parseVal fuel cs with
    | some (v, rest) =>
      match skipWs rest with
      | c :: rest2 =>
        if c = ',' then parseElems fuel (acc ++ [v]) rest2
        else if c = ']' then some (Json.arr (acc ++ [v]), rest2)
        else none
      | [] => none
    | none => none

end

/-- Model of Python json.loads on the fragment of JSON this embedding covers:
parses one value and requires only whitespace to remain. -/
def Json.parse (s : String) : Option Json :=
  match parseVal (2 * s.length + 8) s.data with
  | some (j, rest) => if skipWs rest = [] then some j else none
  | none => none

/-- Usage statistics object, from response_models.Usage.__init__.  Construction
requires the input to be a JSON object; Python raises on anything else. -/
structure Usage where
  _data : Json
  chat_id : Json
  completion_tokens : Json
  prompt_tokens : Json
  total_tokens : Json
  cost : Json
  provider : Json
  completion_tokens_details : Json
  prompt_tokens_details : Json

/-- Builds a Usage from a decoded JSON value; none models a Python exception
(calling .get on a non-dict). -/
def Usage.ofJson : Json → Option Usage
  | .obj fs => some
      { _data := .obj fs
        chat_id := dictGetD fs "chat_id" .null
        completion_tokens := dictGetD fs "completion_tokens" (.num 0)
        prompt_tokens := dictGetD fs "prompt_tokens" (.num 0)
        total_tokens := dictGetD fs "total_tokens" (.num 0)
        cost := dictGetD fs "cost" (.num 0)
        provider := dictGetD fs "provider" .null
        completion_tokens_details := dictGetD fs "completion_tokens_details" (.obj [])
        prompt_tokens_details := dictGetD fs "prompt_tokens_details" (.obj []) }
  | _ => none

/-- Models `Usage(usage_data) if usage_data else None` in the completion
constructors: a falsy usage value yields no Usage object. -/
def usageField (u : Json) : Option (Option Usage) :=
  if pyTruthy u then (Usage.ofJson u).map some else some none

/-- Chat message object, from response_models.Message.__init__. -/
structure Message where
  _data : Json
  role : Json
  content : Json
  annotations : Json

/-- Builds a Message; none models a Python exception on a non-dict input. -/
def Message.ofJson : Json → Option Message
  | .obj fs => some
      { _data := .obj fs
        role := dictGetD fs "role" (.str "")
        content := dictGetD fs "content" (.str "")
        annotations := dictGetD fs "annotations" (.arr []) }
  | _ => none

/-- Individual choice in the completion response, from response_models.Choice. -/
structure Choice where
  _data : Json
  index : Json
  message : Message
  finish_reason : Json

/-- Builds a Choice; the nested message value must be a dict (or absent,
defaulting to an empty dict), else Python raises. -/
def Choice.ofJson : Json → Option Choice
  | .obj fs =>
    match Message.ofJson (dictGetD fs "message" (.obj [])) with
    | some m => some
        { _data := .obj fs
          index := dictGetD fs "index" (.num 0)
          message := m
          finish_reason := dictGetD fs "finish_reason" .null }
    | none => none
  | _ => none

/-- Main chat completion response object, from response_models.ChatCompletion. -/
structure ChatCompletion where
  _data : Json
  id : Json
  object : Json
  created : Json
  model : Json
  service_tier : Json
  choices : List Choice
  usage : Option Usage
  guardrails : Json
  citations : Json

/-- Builds a ChatCompletion.  The choices value must be a list of
choice-constructible dicts (iterating any non-list raises in Python, as does
constructing a Choice from a non-dict element), and a truthy usage value must
be a dict. -/
def ChatCompletion.ofJson : Json → Option ChatCompletion
  | .obj fs =>
    match dictGetD fs "choices" (.arr []) with
    | .arr choicesData =>
      match choicesData.mapM Choice.ofJson with
      | some cs =>
        match usageField (dictGetD fs "usage" (.obj [])) with
        | some u => some
            { _data := .obj fs
              id := dictGetD fs "id" (.str "")
              object := dictGetD fs "object" (.str "chat.completion")
              created := dictGetD fs "created" .null
              model := dictGetD fs "model" (.str "")
              service_tier := dictGetD fs "service_tier" (.str "default")
              choices := cs
              usage := u
              guardrails := dictGetD fs "guardrails" (.obj [])
              citations := dictGetD fs "citations" .null }
        | none => none
      | none => none
    | _ => none
  | _ => none

/-- Returns the original dictionary, from ChatCompletion.to_dict. -/
def ChatCompletion.to_dict (c : ChatCompletion) : Json := c._data

/-- Health check response object, from response_models.HealthResponse.  The
constructor accepts either a bare string or a dict. -/
structure HealthResponse where
  _data : Json
  status : Json

/-- Builds a HealthResponse: a string input is wrapped as a status dict, a
dict input is kept with status looked up from `status` then `content`. -/
def HealthResponse.ofJson : Json → Option HealthResponse
  | .str s => some { _data := .obj [("status", .str s)], status := .str s }
  | .obj fs => some
      { _data := .obj fs
        status := dictGetD fs "status" (dictGetD fs "content" (.str "Unknown")) }
  | _ => none

/-- Returns the dictionary representation, from HealthResponse.to_dict. -/
def HealthResponse.to_dict (h : HealthResponse) : Json := h._data

/-- Delta object for streaming responses, from response_models.Delta. -/
structure Delta where
  _data : Json
  role : Json
  content : Json

/-- Builds a Delta; none models a Python exception on a non-dict input. -/
def Delta.ofJson : Json → Option Delta
  | .obj fs => some
      { _data := .obj fs
        role := dictGetD fs "role" .null
        content := dictGetD fs "content" (.str "") }
  | _ => none

/-- Individual choice in a streaming chunk, from response_models.ChoiceChunk. -/
structure ChoiceChunk where
  _data : Json
  index : Json
  delta : Delta
  finish_reason : Json

/-- Builds a ChoiceChunk; the nested delta value must be a dict (or absent). -/
def ChoiceChunk.ofJson : Json → Option ChoiceChunk
  | .obj fs =>
    match Delta.ofJson (dictGetD fs "delta" (.obj [])) with
    | some d => some
        { _data := .obj fs
          index := dictGetD fs "index" (.num 0)
          delta := d
          finish_reason := dictGetD fs "finish_reason" .null }
    | none => none
  | _ => none

/-- Streaming chunk object, from response_models.ChatCompletionChunk.  Unlike
ChatCompletion, a non-list choices value is defensively replaced by an empty
list before iteration. -/
structure ChatCompletionChunk where
  _data : Json
  id : Json
  object : Json
  created : Json
  model : Json
  choices : List ChoiceChunk
  usage : Option Usage

/-- The defensive isinstance check on the choices value in
ChatCompletionChunk.__init__: any non-list is replaced by an empty list. -/
def chunkChoicesData : Json → List Json
  | .arr xs => xs
  | _ => []

/-- Builds a ChatCompletionChunk from a decoded JSON value. -/
def ChatCompletionChunk.ofJson : Json → Option ChatCompletionChunk
  | .obj fs =>
    match (chunkChoicesData (dictGetD fs "choices" (.arr []))).mapM ChoiceChunk.ofJson with
    | some cs =>
      match usageField (dictGetD fs "usage" (.obj [])) with
      | some u => some
          { _data := .obj fs
            id := dictGetD fs "id" (.str "")
            object := dictGetD fs "object" (.str "chat.completion.chunk")
            created := dictGetD fs "created" .null
            model := dictGetD fs "model" (.str "")
            choices := cs
            usage := u }
      | none => none
    | none => none
  | _ => none

/-- Returns the original dictionary, from ChatCompletionChunk.to_dict. -/
def ChatCompletionChunk.to_dict (c : ChatCompletionChunk) : Json := c._data

/-- Derived query has_content: the chunk has choices and the first choice's
delta content, after stripping, is non-empty.  The result is none when the
stored content is neither None nor a string (Python would raise calling
.strip() on it); a stored None short-circuits to false. -/
def ChatCompletionChunk.has_content (c : ChatCompletionChunk) : Option Bool :=
  match c.choices with
  | [] => some false
  | c0 :: _ =>
    match c0.delta.content with
    | .null => some false
    | .str s => some (pyStrip s != "")
    | _ => none

/-- Derived query content: the first choice's delta content when has_content
is true, the empty string otherwise; none models a Python exception. -/
def ChatCompletionChunk.content (c : ChatCompletionChunk) : Option Json :=
  match c.has_content with
  | some true =>
    match c.choices with
    | c0 :: _ => some c0.delta.content
    | [] => none
  | some false => some (.str "")
  | none => none

/-- Outcome of FastRouter._make_request: the authentication error, an APIError
carrying a message value and a numeric status code, the raw response handle
(streaming success), or the decoded success dictionary. -/
inductive ReqResult where
  | authError (message : String)
  | apiError (message : Json) (statusCode : Nat)
  | streamResponse
  | success (body : Json)

/-- Message extraction applied to the value of an `error` field, as written
twice in client.py: a dict yields its `message` entry (default
"Unknown API error"), a string is used directly, any other value is
stringified when truthy and replaced by "Unknown API error" when falsy. -/
def errorMessageOf (v : Json) : Json :=
  match v with
  | .obj m => dictGetD m "message" (.str "Unknown API error")
  | .str s => .str s
  | v => if pyTruthy v then .str (pyStr v) else .str "Unknown API error"

/-- Classification of one HTTP response by FastRouter._make_request.  The
transport outcome is given as the status code, the JSON parse of the body
(none when the body is not valid JSON), the raw body text, and the message of
the JSON parse error (the str(e) Python would interpolate). -/
def makeRequest (stream : Bool) (status : Nat) (body : Option Json)
    (text : String) (parseErrMsg : String) : ReqResult :=
  if status = 401 then .authError "Invalid API key or authentication failed"
  else if status ≥ 400 then
    match body with
    | some (.obj fs) => .apiError (errorMessageOf (dictGetD fs "error" (.obj []))) status
    | some j => .apiError (.str (pyStr j)) status
    | none =>
      .apiError
        (.str ("HTTP " ++ toString status ++ ": " ++ text ++ " (Parse error: "
          ++ parseErrMsg ++ ")")) status
  else if stream then .streamResponse
  else
    match body with
    | some (.obj fs) =>
      if dictHasKey fs "error" then
        .apiError (errorMessageOf (dictGetD fs "error" (.obj []))) 200
      else .success (.obj fs)
    | some j => .success (.obj [("data", j)])
    | none => .success (.obj [("content", .str text), ("parse_error", .str parseErrMsg)])

/-- Credential resolution in FastRouter.__init__: `api_key or os.getenv(...)`.
A falsy explicit key (None or the empty string) falls back to the
configuration source. -/
def resolvedApiKey (explicit env : Option String) : Option String :=
  match explicit with
  | some k => if k = "" then env else some k
  | none => env

/-- Request headers from FastRouter._get_headers: Content-Type always, and the
bearer Authorization header only when the stored api_key is truthy. -/
def getHeaders (apiKey : Option String) : List (String × String) :=
  let hs := [("Content-Type", "application/json")]
  match apiKey with
  | some k => if k = "" then hs else hs ++ [("Authorization", "Bearer " ++ k)]
  | none => hs

/-- Client state from FastRouter.__init__ (the part the claims depend on). -/
structure FastRouterClient where
  api_key : Option String

/-- Builds the client: the credential is the explicit argument when truthy,
else the one resolved from the environment. -/
def FastRouterClient.init (explicit env : Option String) : FastRouterClient :=
  { api_key := resolvedApiKey explicit env }

/-- Headers attached to every request issued through _make_request (both
create-completion and health-check call it). -/
def FastRouterClient.requestHeaders (c : FastRouterClient) : List (String × String) :=
  getHeaders c.api_key

/-- Arguments of Completions.create that shape the payload.  Option models an
omitted optional parameter (Python None default); kwargs are the extra named
fields. -/
structure CreateArgs where
  model : Json
  messages : Json
  max_tokens : Option Json
  stream : Bool
  provider : Option Json
  temperature : Option Json
  top_p : Option Json
  frequency_penalty : Option Json
  presence_penalty : Option Json
  stop : Option Json
  kwargs : List (String × Json)

/-- Models `if x is not None: payload[k] = x`. -/
def addOpt (d : List (String × Json)) (k : String) (v : Option Json) :
    List (String × Json) :=
  match v with
  | some x => dictInsert d k x
  | none => d

/-- Payload construction in Completions.create: the base dict with model,
messages and stream, the seven conditional optional fields in source order,
then payload.update(kwargs). -/
def buildPayload (a : CreateArgs) : List (String × Json) :=
  let p0 : List (String × Json) :=
    [("model", a.model), ("messages", a.messages), ("stream", .bool a.stream)]
  let p1 := addOpt p0 "max_tokens" a.max_tokens
  let p2 := addOpt p1 "provider" a.provider
  let p3 := addOpt p2 "temperature" a.temperature
  let p4 := addOpt p3 "top_p" a.top_p
  let p5 := addOpt p4 "frequency_penalty" a.frequency_penalty
  let p6 := addOpt p5 "presence_penalty" a.presence_penalty
  let p7 := addOpt p6 "stop" a.stop
  dictUpdate p7 a.kwargs

/-- End state of a full run of the _parse_stream generator: done covers normal
termination (sentinel or source exhaustion); errored covers an exception while
decoding a chunk, re-raised as FastRouterError. -/
inductive StreamEnd where
  | done
  | errored

/-- Full run of StreamingChatCompletion._parse_stream over a finite list of
source lines: skip falsy lines, strip, keep only `data: ` lines, stop at the
[DONE] sentinel, skip JSON parse failures, yield decoded chunks in order. -/
def collectStream : List String → List ChatCompletionChunk × StreamEnd
  | [] => ([], .done)
  | line :: rest =>
    if line = "" then collectStream rest
    else
      if pyStartsWith (pyStrip line) "data: " then
        if pyStrip (pyDrop (pyStrip line) 6) = "[DONE]" then ([], .done)
        else
          match Json.parse (pyDrop (pyStrip line) 6) with
          | some j =>
            match ChatCompletionChunk.ofJson j with
            | some c => (c :: (collectStream rest).1, (collectStream rest).2)
            | none => ([], .errored)
          | none => collectStream rest
      else collectStream rest

/-- The line source underlying a streaming response, modelled from the spec's
Transport Adapter contract (requests is an external collaborator): a cursor
over the remaining lines plus a closed flag; a closed or exhausted handle
produces no further lines and signals end-of-sequence, not an error. -/
structure Source where
  remaining : List String
  closed : Bool

/-- Result of one pull on the _parse_stream generator. -/
inductive PullResult where
  | chunk (c : ChatCompletionChunk)
  | stop
  | errored

/-- One resumption of the _parse_stream generator body over an open source:
consume lines until a chunk is yielded, the sentinel or exhaustion ends the
stream (running the finally block, closing the source), or a chunk decode
error aborts (also closing the source). -/
def streamNextAux : List String → PullResult × Source
  | [] => (.stop, ⟨[], true⟩)
  | line :: rest =>
    if line = "" then streamNextAux rest
    else
      if pyStartsWith (pyStrip line) "data: " then
        if pyStrip (pyDrop (pyStrip line) 6) = "[DONE]" then (.stop, ⟨rest, true⟩)
        else
          match Json.parse (pyDrop (pyStrip line) 6) with
          | some j =>
            match ChatCompletionChunk.ofJson j with
            | some c => (.chunk c, ⟨rest, false⟩)
            | none => (.errored, ⟨rest, true⟩)
          | none => streamNextAux rest
      else streamNextAux rest

/-- One pull on the generator, starting from the current source state. -/
def streamNext (s : Source) : PullResult × Source :=
  if s.closed then (.stop, s) else streamNextAux s.remaining

/-- StreamingChatCompletion session state: the shared line source and the
state of the `_iterator` attribute (none: not created yet; some true: a live
generator; some false: a finished generator, which raises StopIteration on
every further pull). -/
structure Session where
  src : Source
  iteratorState : Option Bool

/-- Session construction: StreamingChatCompletion.__init__ starts with no
iterator. -/
def Session.make (lines : List String) : Session := ⟨⟨lines, false⟩, none⟩

/-- Model of __iter__: installs a fresh generator over the shared source,
discarding any previous one. -/
def Session.iterS (s : Session) : Session := { s with iteratorState := some true }

/-- True when a pull produced an element. -/
def isChunk : PullResult → Bool
  | .chunk _ => true
  | _ => false

/-- Model of __next__: create the generator if absent, raise StopIteration
immediately if it already finished, otherwise resume it; a generator that
does not yield (stop or error) becomes finished. -/
def Session.nextS (s : Session) : PullResult × Session :=
  match s.iteratorState with
  | some false => (.stop, s)
  | _ =>
    let r := streamNext s.src
    (r.1, { src := r.2, iteratorState := some (isChunk r.1) })

/-- Modelled from the claim text of C1: the chunk has at least one ChoiceChunk
whose delta content, after trimming whitespace, is non-empty. -/
def specAnyChoiceContent (c : ChatCompletionChunk) : Bool :=
  c.choices.any (fun ch =>
    match ch.delta.content with
    | Json.str s => pyStrip s != ""
    | _ => false)

/-- Modelled from the claim text of C2 and C3: the `message` sub-field if the
error value is an object, the value itself if it is a string, otherwise its
stringification. -/
def specClaimMessageRule : Json → Json
  | .obj m => dictGetD m "message" .null
  | .str s => .str s
  | v => .str (pyStr v)

/-- Modelled from the amended claim text of C2 and C3: like the claimed rule,
except that an object without a `message` entry, and any falsy non-object
non-string error value, yield the fixed message "Unknown API error". -/
def specAmendedMessageRule : Json → Json
  | .obj m => dictGetD m "message" (.str "Unknown API error")
  | .str s => .str s
  | v => if pyTruthy v then .str (pyStr v) else .str "Unknown API error"

/-- Modelled from the amended claim text of C3: the full error-message rule
for a non-401 status of at least 400, covering the three body shapes. -/
def specAmendedErrorBodyMessage (status : Nat) (body : Option Json)
    (text parseErrMsg : String) : Json :=
  match body with
  | some (.obj fs) => specAmendedMessageRule (dictGetD fs "error" (.obj []))
  | some j => .str (pyStr j)
  | none =>
    .str ("HTTP " ++ toString status ++ ": " ++ text ++ " (Parse error: "
      ++ parseErrMsg ++ ")")

/-- Modelled from the claim text of C4: the lines that, after trimming, begin
with `data: `, whose payload after trimming is not the sentinel, and whose
payload parses as JSON, up to but not including the first sentinel; kept as
their payloads. -/
def selectDataLines : List String → List String
  | [] => []
  | l :: rest =>
    if pyStartsWith (pyStrip l) "data: " then
      if pyStrip (pyDrop (pyStrip l) 6) = "[DONE]" then []
      else if (Json.parse (pyDrop (pyStrip l) 6)).isSome then
        pyDrop (pyStrip l) 6 :: selectDataLines rest
      else selectDataLines rest
    else selectDataLines rest

/-- True exactly on JSON objects. -/
def isObjJson : Json → Bool
  | .obj _ => true
  | _ => false

theorem errorMessageOf_eq_specAmended (v : Json) :
    errorMessageOf v = specAmendedMessageRule v := by
  cases v <;> rfl


theorem dictGet_cons {α : Type} (k2 : String) (v : α) (rest : List (String × α))
    (k : String) :
    dictGet ((k2, v) :: rest) k = if k2 = k then some v else dictGet rest k := rfl

theorem dictGet_append_none {α : Type} {d : List (String × α)} (e : List (String × α))
    {k : String} (h : dictGet d k = none) : dictGet (d ++ e) k = dictGet e k := by
  induction d with
  | nil => rfl
  | cons p rest ih =>
    obtain ⟨k2, v2⟩ := p
    rw [List.cons_append, dictGet_cons]
    rw [dictGet_cons] at h
    by_cases hk : k2 = k
    · simp [hk] at h
    · simp only [hk, if_neg, ite_false] at h ⊢
      exact ih h

theorem dictGet_append_some {α : Type} {d : List (String × α)} (e : List (String × α))
    {k : String} {v : α} (h : dictGet d k = some v) : dictGet (d ++ e) k = some v := by
  induction d with
  | nil => simp [dictGet] at h
  | cons p rest ih =>
    obtain ⟨k2, v2⟩ := p
    rw [List.cons_append, dictGet_cons]
    rw [dictGet_cons] at h
    by_cases hk : k2 = k
    · simpa [hk] using h
    · simp only [hk, if_neg, ite_false] at h ⊢
      exact ih h

theorem dictGet_replaceMap {α : Type} (d : List (String × α)) (k k2 : String) (v : α)
    (h : k2 ≠ k) :
    dictGet (d.map (fun p => if p.1 = k then (k, v) else p)) k2 = dictGet d k2 := by
  induction d with
  | nil => rfl
  | cons p rest ih =>
    obtain ⟨k1, v1⟩ := p
    by_cases hk : k1 = k
    · have hmap : ((k1, v1) :: rest).map (fun p => if p.1 = k then (k, v) else p)
          = (k, v) :: rest.map (fun p => if p.1 = k then (k, v) else p) := by
        simp [hk]
      rw [hmap, dictGet_cons, dictGet_cons,
        if_neg (Ne.symm h), if_neg (show ¬ k1 = k2 by rw [hk]; exact Ne.symm h)]
      exact ih
    · have hmap : ((k1, v1) :: rest).map (fun p => if p.1 = k then (k, v) else p)
          = (k1, v1) :: rest.map (fun p => if p.1 = k then (k, v) else p) := by
        simp [hk]
      rw [hmap, dictGet_cons, dictGet_cons]
      by_cases h2 : k1 = k2
      · rw [if_pos h2, if_pos h2]
      · rw [if_neg h2, if_neg h2]
        exact ih

theorem dictGet_of_hasKey_false {α : Type} {d : List (String × α)} {k : String}
    (h : dictHasKey d k = false) : dictGet d k = none := by
  unfold dictHasKey at h
  cases hg : dictGet d k with
  | none => rfl
  | some w => rw [hg] at h; simp at h

theorem dictGet_insert_self {α : Type} (d : List (String × α)) (k : String) (v : α) :
    dictGet (dictInsert d k v) k = some v := by
  unfold dictInsert
  cases hh : dictHasKey d k with
  | true =>
    simp only [if_pos]
    unfold dictHasKey at hh
    induction d with
    | nil => simp [dictGet] at hh
    | cons p rest ih =>
      obtain ⟨k1, v1⟩ := p
      by_cases hk : k1 = k
      · have hmap : ((k1, v1) :: rest).map (fun p => if p.1 = k then (k, v) else p)
            = (k, v) :: rest.map (fun p => if p.1 = k then (k, v) else p) := by
          simp [hk]
        rw [hmap, dictGet_cons, if_pos rfl]
      · have hmap : ((k1, v1) :: rest).map (fun p => if p.1 = k then (k, v) else p)
            = (k1, v1) :: rest.map (fun p => if p.1 = k then (k, v) else p) := by
          simp [hk]
        rw [dictGet_cons, if_neg hk] at hh
        rw [hmap, dictGet_cons, if_neg hk]
        exact ih hh
  | false =>
    simp only [Bool.false_eq_true, if_neg, ite_false]
    rw [dictGet_append_none _ (dictGet_of_hasKey_false hh), dictGet_cons, if_pos rfl]

theorem dictGet_insert_ne {α : Type} (d : List (String × α)) (k k2 : String) (v : α)
    (h : k2 ≠ k) : dictGet (dictInsert d k v) k2 = dictGet d k2 := by
  unfold dictInsert
  cases hh : dictHasKey d k with
  | true =>
    simp only [if_pos]
    exact dictGet_replaceMap d k k2 v h
  | false =>
    simp only [Bool.false_eq_true, if_neg, ite_false]
    cases hg : dictGet d k2 with
    | some w => exact dictGet_append_some _ hg
    | none =>
      rw [dictGet_append_none _ hg, dictGet_cons, if_neg (Ne.symm h)]
      rfl

theorem dictHasKey_insert {α : Type} (d : List (String × α)) (k k2 : String) (v : α) :
    dictHasKey (dictInsert d k v) k2 = if k2 = k then true else dictHasKey d k2 := by
  by_cases h : k2 = k
  · subst h
    simp [dictHasKey, dictGet_insert_self]
  · simp [h, dictHasKey, dictGet_insert_ne d k k2 v h]

theorem dictGet_none_of_not_mem_keys {α : Type} {e : List (String × α)} {k : String}
    (h : k ∉ e.map Prod.fst) : dictGet e k = none := by
  induction e with
  | nil => rfl
  | cons p rest ih =>
    obtain ⟨k1, v1⟩ := p
    simp only [List.map_cons, List.mem_cons, not_or] at h
    rw [dictGet_cons, if_neg (fun hk => h.1 hk.symm)]
    exact ih h.2

theorem dictUpdate_cons {α : Type} (d : List (String × α)) (k : String) (v : α)
    (e : List (String × α)) :
    dictUpdate d ((k, v) :: e) = dictUpdate (dictInsert d k v) e := rfl

theorem dictGet_update_of_none {α : Type} {e : List (String × α)} (d : List (String × α))
    {k : String} (h : dictGet e k = none) : dictGet (dictUpdate d e) k = dictGet d k := by
  induction e generalizing d with
  | nil => rfl
  | cons p rest ih =>
    obtain ⟨k1, v1⟩ := p
    rw [dictGet_cons] at h
    by_cases hk : k1 = k
    · simp [hk] at h
    · rw [if_neg hk] at h
      rw [dictUpdate_cons, ih _ h, dictGet_insert_ne _ _ _ _ (Ne.symm hk)]

theorem dictGet_update_of_some {α : Type} {e : List (String × α)} (d : List (String × α))
    {k : String} {v : α} (hnd : (e.map Prod.fst).Nodup) (h : dictGet e k = some v) :
    dictGet (dictUpdate d e) k = some v := by
  induction e generalizing d with
  | nil => simp [dictGet] at h
  | cons p rest ih =>
    obtain ⟨k1, v1⟩ := p
    simp only [List.map_cons, List.nodup_cons] at hnd
    rw [dictGet_cons] at h
    by_cases hk : k1 = k
    · rw [if_pos hk] at h
      have hrest : dictGet rest k = none :=
        dictGet_none_of_not_mem_keys (by rw [← hk]; exact hnd.1)
      rw [dictUpdate_cons, dictGet_update_of_none _ hrest, ← hk, dictGet_insert_self]
      exact h
    · rw [if_neg hk] at h
      rw [dictUpdate_cons]
      exact ih _ hnd.2 h

theorem dictHasKey_update {α : Type} (d e : List (String × α)) (k : String) :
    dictHasKey (dictUpdate d e) k = (dictHasKey d k || dictHasKey e k) := by
  induction e generalizing d with
  | nil => simp [dictUpdate, dictHasKey, dictGet]
  | cons p rest ih =>
    obtain ⟨k1, v1⟩ := p
    rw [dictUpdate_cons, ih, dictHasKey_insert]
    by_cases hk : k = k1
    · subst hk
      simp [dictHasKey, dictGet_cons]
    · rw [if_neg hk]
      unfold dictHasKey
      rw [dictGet_cons, if_neg (show ¬ k1 = k from fun h => hk h.symm)]

/-- C5: every response with HTTP status 401, regardless of body content,
parse outcome, and of whether the request was issued in streaming mode (both
create-completion and health-check delegate to _make_request), raises the
authentication failure and no other failure kind. -/
theorem c5_status_401_authentication_failure (stream : Bool) (body : Option Json)
    (text parseErrMsg : String) :
    makeRequest stream 401 body text parseErrMsg =
      ReqResult.authError "Invalid API key or authentication failed" := rfl

/-- C2 counterexample: a 200 response whose body is the object with a falsy
non-object non-string error value 0 yields the fixed message
"Unknown API error", while the claimed rule (otherwise its stringification)
would yield "0". -/
theorem c2_counterexample :
    makeRequest false 200 (some (Json.obj [("error", Json.num 0)]))
        "\x7b\"error\": 0\x7d" "" =
      ReqResult.apiError (Json.str "Unknown API error") 200
    ∧ specClaimMessageRule (Json.num 0) = Json.str "0"
    ∧ Json.str "Unknown API error" ≠ Json.str "0" := by
  refine ⟨rfl, rfl, ?_⟩
  simp

/-- C2 (amended): for every non-streaming response with status below 400 whose
body parses to a JSON object containing a top-level error field, _make_request
raises an APIError with status code exactly 200, with the message given by the
amended extraction rule (message sub-field of an object error, a string error
itself, the stringification of a truthy other value, and the fixed message
"Unknown API error" for a falsy other value or an object without message);
no successful result is returned. -/
theorem c2_success_status_embedded_error (status : Nat) (hlt : status < 400)
    (fs : List (String × Json)) (he : dictHasKey fs "error" = true)
    (text parseErrMsg : String) :
    makeRequest false status (some (Json.obj fs)) text parseErrMsg =
      ReqResult.apiError (specAmendedMessageRule (dictGetD fs "error" (Json.obj []))) 200 := by
  unfold makeRequest
  have h401 : ¬ status = 401 := by omega
  have h400 : ¬ status ≥ 400 := by omega
  simp only [h401, if_neg, ite_false, h400]
  simp [he, errorMessageOf_eq_specAmended]

/-- C2 witness: the spec's own example, a 200 response with body
containing the string error "oops". -/
theorem c2_success_status_embedded_error_witness :
    makeRequest false 200 (some (Json.obj [("error", Json.str "oops")]))
        "\x7b\"error\": \"oops\"\x7d" "" =
      ReqResult.apiError (Json.str "oops") 200 :=
  c2_success_status_embedded_error 200 (by decide) [("error", Json.str "oops")] rfl
    "\x7b\"error\": \"oops\"\x7d" ""

/-- C3 counterexample: a 400 response whose body parses to a JSON object
without an error field is reported with the fixed message "Unknown API error",
which contains neither the raw body text nor any combination of it, while the
claim says the message falls back to a combination of the raw status and raw
body text. -/
theorem c3_counterexample :
    makeRequest false 400 (some (Json.obj [("ok", Json.num 1)])) "RAWBODYMARKER" "e" =
      ReqResult.apiError (Json.str "Unknown API error") 400
    ∧ listSub "RAWBODYMARKER".data "Unknown API error".data = false := ⟨rfl, rfl⟩

/-- C3 (amended): for every response with status at least 400 and not 401,
streaming or not, _make_request raises an APIError carrying that status code,
with the message given by: the amended extraction rule applied to the error
field (defaulting to an empty object) when the body parses to a JSON object;
the stringification of the parsed value when the body parses to non-object
JSON; and the combination of raw status, raw body text and the parse error
description only when the body does not parse as JSON. -/
theorem c3_http_error_classification (stream : Bool) (status : Nat)
    (h4 : 400 ≤ status) (h1 : status ≠ 401) (body : Option Json)
    (text parseErrMsg : String) :
    makeRequest stream status body text parseErrMsg =
      ReqResult.apiError (specAmendedErrorBodyMessage status body text parseErrMsg) status := by
  unfold makeRequest specAmendedErrorBodyMessage
  simp only [h1, if_neg, ite_false, if_pos h4]
  cases body with
  | none => simp [ge_iff_le, h4]
  | some j =>
    cases j <;> simp [ge_iff_le, h4, errorMessageOf_eq_specAmended]

/-- C3 witness: the spec's own example, a 400 response with body containing
a nested error object with a message field. -/
theorem c3_http_error_classification_witness :
    makeRequest false 400
        (some (Json.obj [("error", Json.obj [("message", Json.str "Bad request")])]))
        "ignored" "e" =
      ReqResult.apiError (Json.str "Bad request") 400 :=
  c3_http_error_classification false 400 (by decide) (by decide)
    (some (Json.obj [("error", Json.obj [("message", Json.str "Bad request")])]))
    "ignored" "e"

/-- C9 counterexample: a 200 response whose body is not JSON is wrapped as a
dictionary carrying both the raw text under "content" and a parse-error
description under "parse_error", which differs from the claimed exact wrapper
holding only the "content" key. -/
theorem c9_counterexample :
    makeRequest false 200 none "hello" "PERR" =
      ReqResult.success (Json.obj [("content", Json.str "hello"),
        ("parse_error", Json.str "PERR")])
    ∧ makeRequest false 200 none "hello" "PERR" ≠
      ReqResult.success (Json.obj [("content", Json.str "hello")]) := by
  refine ⟨rfl, ?_⟩
  intro h
  rw [show makeRequest false 200 none "hello" "PERR" =
    ReqResult.success (Json.obj [("content", Json.str "hello"),
      ("parse_error", Json.str "PERR")]) from rfl] at h
  simp at h

/-- C9 (amended): for every non-streaming response with status below 400, a
body that is valid JSON but not an object is wrapped as exactly
the data wrapper object, and a body that does not parse as JSON is wrapped as
the object holding the raw text under "content" plus the parse error
description under "parse_error". -/
theorem c9_success_body_wrapping (status : Nat) (hlt : status < 400)
    (text parseErrMsg : String) :
    (∀ j : Json, isObjJson j = false →
      makeRequest false status (some j) text parseErrMsg =
        ReqResult.success (Json.obj [("data", j)]))
    ∧ makeRequest false status none text parseErrMsg =
      ReqResult.success (Json.obj [("content", Json.str text),
        ("parse_error", Json.str parseErrMsg)]) := by
  have h401 : ¬ status = 401 := by omega
  have h400 : ¬ status ≥ 400 := by omega
  constructor
  · intro j hj
    unfold makeRequest
    simp only [h401, if_neg, ite_false, h400]
    cases j <;> simp_all [isObjJson]
  · unfold makeRequest
    simp [h401, h400]

/-- C9 witness: a bare JSON array body and a non-JSON body at status 200. -/
theorem c9_success_body_wrapping_witness :
    makeRequest false 200 (some (Json.arr [Json.num 1])) "[1]" "" =
      ReqResult.success (Json.obj [("data", Json.arr [Json.num 1])])
    ∧ makeRequest false 200 none "plain text" "Expecting value" =
      ReqResult.success (Json.obj [("content", Json.str "plain text"),
        ("parse_error", Json.str "Expecting value")]) :=
  ⟨(c9_success_body_wrapping 200 (by decide) "[1]" "").1 (Json.arr [Json.num 1]) rfl,
    (c9_success_body_wrapping 200 (by decide) "plain text" "Expecting value").2⟩

/-- C7 counterexample: when no explicit key is passed and the configuration
source supplies the empty string, the resolved credential is the empty string
but the request headers carry no Authorization entry at all, refuting the
claim that both headers are present on every request. -/
theorem c7_counterexample :
    resolvedApiKey none (some "") = some ""
    ∧ (FastRouterClient.init none (some "")).requestHeaders =
        [("Content-Type", "application/json")]
    ∧ ((FastRouterClient.init none (some "")).requestHeaders.any
        (fun p => p.1 = "Authorization")) = false := ⟨rfl, rfl, rfl⟩

/-- C7 (amended): every request carries Content-Type application/json; it
additionally carries the bearer Authorization header exactly when the resolved
credential (the explicitly passed key if truthy, else the configuration
source's value) is present and non-empty; a missing or empty credential
yields only the Content-Type header. -/
theorem c7_request_headers (explicit env : Option String) :
    ("Content-Type", "application/json") ∈ (FastRouterClient.init explicit env).requestHeaders
    ∧ (∀ k, resolvedApiKey explicit env = some k → k ≠ "" →
        ("Authorization", "Bearer " ++ k) ∈ (FastRouterClient.init explicit env).requestHeaders)
    ∧ ((resolvedApiKey explicit env = none ∨ resolvedApiKey explicit env = some "") →
        (FastRouterClient.init explicit env).requestHeaders =
          [("Content-Type", "application/json")]) := by
  have hreq : (FastRouterClient.init explicit env).requestHeaders
      = getHeaders (resolvedApiKey explicit env) := rfl
  rw [hreq]
  cases hk : resolvedApiKey explicit env with
  | none => exact ⟨by simp [getHeaders], fun k hs => by simp at hs, fun _ => rfl⟩
  | some k =>
    by_cases hke : k = ""
    · subst hke
      refine ⟨by simp [getHeaders], fun k2 hs hne => ?_, fun _ => by simp [getHeaders]⟩
      rw [Option.some.injEq] at hs
      exact absurd hs.symm hne
    · refine ⟨?_, fun k2 hs hne => ?_, fun habs => ?_⟩
      · simp [getHeaders, hke]
      · rw [Option.some.injEq] at hs
        subst hs
        simp [getHeaders, hke]
      · rcases habs with h | h
        · exact Option.noConfusion h
        · rw [Option.some.injEq] at h
          exact absurd h hke

/-- C7 witness: an explicitly passed non-empty key yields both headers. -/
theorem c7_request_headers_witness :
    ("Content-Type", "application/json") ∈ (FastRouterClient.init (some "KEY") none).requestHeaders
    ∧ ("Authorization", "Bearer KEY") ∈ (FastRouterClient.init (some "KEY") none).requestHeaders := by
  have h := c7_request_headers (some "KEY") none
  exact ⟨h.1, h.2.1 "KEY" rfl (by decide)⟩

/-- C10: for every JSON object, each of the three result constructors that
succeeds on it stores the original dictionary unmodified, so converting back
with to_dict is the identity and no provider-specific field is lost. -/
theorem c10_to_dict_roundtrip (fs : List (String × Json)) :
    (∀ c, ChatCompletion.ofJson (Json.obj fs) = some c → c.to_dict = Json.obj fs)
    ∧ (∀ c, ChatCompletionChunk.ofJson (Json.obj fs) = some c → c.to_dict = Json.obj fs)
    ∧ (∀ h, HealthResponse.ofJson (Json.obj fs) = some h → h.to_dict = Json.obj fs) := by
  refine ⟨fun c h => ?_, fun c h => ?_, fun c h => ?_⟩
  · simp only [ChatCompletion.ofJson] at h
    repeat split at h
    all_goals first
      | exact Option.noConfusion h
      | (rw [Option.some.injEq] at h; rw [← h]; rfl)
  · simp only [ChatCompletionChunk.ofJson] at h
    repeat split at h
    all_goals first
      | exact Option.noConfusion h
      | (rw [Option.some.injEq] at h; rw [← h]; rfl)
  · simp only [HealthResponse.ofJson] at h
    rw [Option.some.injEq] at h
    rw [← h]
    rfl

/-- C10 witness: a concrete object with a provider-specific extension field
round-trips through all three constructors. -/
theorem c10_to_dict_roundtrip_witness :
    (ChatCompletion.ofJson (Json.obj [("id", Json.str "x"), ("extra", Json.num 5)])).map
        ChatCompletion.to_dict
      = some (Json.obj [("id", Json.str "x"), ("extra", Json.num 5)])
    ∧ (ChatCompletionChunk.ofJson (Json.obj [("id", Json.str "x"), ("extra", Json.num 5)])).map
        ChatCompletionChunk.to_dict
      = some (Json.obj [("id", Json.str "x"), ("extra", Json.num 5)])
    ∧ (HealthResponse.ofJson (Json.obj [("id", Json.str "x"), ("extra", Json.num 5)])).map
        HealthResponse.to_dict
      = some (Json.obj [("id", Json.str "x"), ("extra", Json.num 5)]) := by
  have h := c10_to_dict_roundtrip [("id", Json.str "x"), ("extra", Json.num 5)]
  refine ⟨?_, ?_, ?_⟩
  · match hc : ChatCompletion.ofJson (Json.obj [("id", Json.str "x"), ("extra", Json.num 5)]) with
    | some c => simp [h.1 c hc]
    | none => exact Option.noConfusion hc
  · match hc : ChatCompletionChunk.ofJson (Json.obj [("id", Json.str "x"), ("extra", Json.num 5)]) with
    | some c => simp [h.2.1 c hc]
    | none => exact Option.noConfusion hc
  · match hc : HealthResponse.ofJson (Json.obj [("id", Json.str "x"), ("extra", Json.num 5)]) with
    | some c => simp [h.2.2 c hc]
    | none => exact Option.noConfusion hc

/-- Chunk input whose first choice has whitespace-only delta content while its
second choice has non-empty content. -/
def c1CexJson : Json :=
  Json.obj [("choices", Json.arr
    [Json.obj [("delta", Json.obj [("content", Json.str " ")])],
     Json.obj [("delta", Json.obj [("content", Json.str "Hi")])]])]

/-- C1 counterexample: the chunk built from c1CexJson has a ChoiceChunk with
non-empty trimmed delta content (the claimed condition holds), yet has_content
is false, because the query inspects only the first choice. -/
theorem c1_counterexample :
    (ChatCompletionChunk.ofJson c1CexJson).map ChatCompletionChunk.has_content
      = some (some false)
    ∧ (ChatCompletionChunk.ofJson c1CexJson).map specAnyChoiceContent = some true :=
  ⟨rfl, rfl⟩

/-- C1 (amended): for every chunk built from a decoded JSON object, has_content
is true iff the chunk has at least one choice and the FIRST choice's delta
content is a string that is non-empty after trimming; when has_content is true,
content returns that first fragment, and when it is false, content returns the
empty string.  Both queries read the chunk and modify nothing. -/
theorem c1_chunk_content_queries (j : Json) (c : ChatCompletionChunk)
    (h : ChatCompletionChunk.ofJson j = some c) :
    (c.has_content = some true ↔
      ∃ c0 rest s, c.choices = c0 :: rest ∧ c0.delta.content = Json.str s ∧ pyStrip s ≠ "")
    ∧ (∀ c0 rest, c.choices = c0 :: rest → c.has_content = some true →
        c.content = some c0.delta.content)
    ∧ (c.has_content = some false → c.content = some (Json.str "")) := by
  refine ⟨⟨?_, ?_⟩, ?_, ?_⟩
  · intro ht
    unfold ChatCompletionChunk.has_content at ht
    split at ht
    · simp at ht
    · rename_i c0 tail hch
      split at ht
      · simp at ht
      · rename_i s hcon
        exact ⟨c0, tail, s, hch, hcon, by simpa using ht⟩
      · exact Option.noConfusion ht
  · rintro ⟨c0, rest, s, hch, hcon, hne⟩
    simp [ChatCompletionChunk.has_content, hch, hcon, hne]
  · intro c0 rest hch ht
    simp [ChatCompletionChunk.content, ht, hch]
  · intro hf
    simp [ChatCompletionChunk.content, hf]

/-- Chunk input with a single choice carrying the fragment "Hi". -/
def c1WitJson : Json :=
  Json.obj [("choices", Json.arr [Json.obj [("delta", Json.obj [("content", Json.str "Hi")])]])]

/-- The chunk the constructor builds from c1WitJson. -/
def c1WitChunk : ChatCompletionChunk :=
  { _data := c1WitJson
    id := Json.str ""
    object := Json.str "chat.completion.chunk"
    created := Json.null
    model := Json.str ""
    choices := [{ _data := Json.obj [("delta", Json.obj [("content", Json.str "Hi")])]
                  index := Json.num 0
                  delta := { _data := Json.obj [("content", Json.str "Hi")]
                             role := Json.null
                             content := Json.str "Hi" }
                  finish_reason := Json.null }]
    usage := none }

/-- C1 witness: the spec's streaming example chunk has has_content true and
content "Hi". -/
theorem c1_chunk_content_queries_witness :
    c1WitChunk.has_content = some true ∧ c1WitChunk.content = some (Json.str "Hi") := by
  have h := c1_chunk_content_queries c1WitJson c1WitChunk rfl
  exact ⟨h.1.mpr ⟨_, _, "Hi", rfl, rfl, by decide⟩,
    h.2.1 _ _ rfl (h.1.mpr ⟨_, _, "Hi", rfl, rfl, by decide⟩)⟩

/-- The seven conditionally-included optional parameter names of
Completions.create, in source order. -/
def optionalParamNames : List String :=
  ["max_tokens", "provider", "temperature", "top_p", "frequency_penalty",
    "presence_penalty", "stop"]

/-- The optional-argument value supplied for a given optional parameter name. -/
def optField (a : CreateArgs) : String → Option Json :=
  fun n =>
    if n = "max_tokens" then a.max_tokens
    else if n = "provider" then a.provider
    else if n = "temperature" then a.temperature
    else if n = "top_p" then a.top_p
    else if n = "frequency_penalty" then a.frequency_penalty
    else if n = "presence_penalty" then a.presence_penalty
    else if n = "stop" then a.stop
    else none

theorem dictGet_some_mem {α : Type} {e : List (String × α)} {k : String} {v : α}
    (h : dictGet e k = some v) : (k, v) ∈ e := by
  induction e with
  | nil => simp [dictGet] at h
  | cons p rest ih =>
    obtain ⟨k1, v1⟩ := p
    rw [dictGet_cons] at h
    by_cases hk : k1 = k
    · rw [if_pos hk] at h
      rw [Option.some.injEq] at h
      subst hk; subst h
      exact List.mem_cons_self _ _
    · rw [if_neg hk] at h
      exact List.mem_cons_of_mem _ (ih h)

theorem dictGet_addOpt_ne (d : List (String × Json)) (k k2 : String) (v : Option Json)
    (h : k2 ≠ k) : dictGet (addOpt d k v) k2 = dictGet d k2 := by
  cases v with
  | none => rfl
  | some x => exact dictGet_insert_ne d k k2 x h

theorem dictGet_addOpt_self (d : List (String × Json)) (k : String) (v : Option Json)
    (h : dictGet d k = none) : dictGet (addOpt d k v) k = v := by
  cases v with
  | none => exact h
  | some x => exact dictGet_insert_self d k x

theorem dictHasKey_addOpt_ne (d : List (String × Json)) (k k2 : String) (v : Option Json)
    (h : k2 ≠ k) : dictHasKey (addOpt d k v) k2 = dictHasKey d k2 := by
  unfold dictHasKey
  rw [dictGet_addOpt_ne d k k2 v h]

/-- C6: in the payload built by Completions.create, each of the seven optional
parameters appears as a key exactly when the caller supplied a value for it
(and then with exactly that value, so an explicit falsy value like 0 is kept
while an omitted parameter contributes no key at all), provided the extra
named fields do not use those names (Python keyword binding already forbids
it); the stream key is always present; and every extra named field is merged
last, overriding any earlier key of the same name, including stream. -/
theorem c6_payload_construction (a : CreateArgs) :
    ((∀ p ∈ a.kwargs, p.1 ∉ optionalParamNames) →
      ∀ n ∈ optionalParamNames, dictGet (buildPayload a) n = optField a n)
    ∧ dictHasKey (buildPayload a) "stream" = true
    ∧ ((a.kwargs.map Prod.fst).Nodup →
      ∀ k v, dictGet a.kwargs k = some v → dictGet (buildPayload a) k = some v) := by
  refine ⟨?_, ?_, ?_⟩
  · intro hdisj n hn
    have hkw : dictGet a.kwargs n = none := by
      cases hg : dictGet a.kwargs n with
      | none => rfl
      | some w => exact absurd hn (hdisj (n, w) (dictGet_some_mem hg))
    unfold buildPayload
    rw [dictGet_update_of_none _ hkw]
    simp only [optionalParamNames, List.mem_cons, List.not_mem_nil, or_false] at hn
    rcases hn with rfl | rfl | rfl | rfl | rfl | rfl | rfl
    · rw [dictGet_addOpt_ne _ _ _ _ (by decide), dictGet_addOpt_ne _ _ _ _ (by decide),
        dictGet_addOpt_ne _ _ _ _ (by decide), dictGet_addOpt_ne _ _ _ _ (by decide),
        dictGet_addOpt_ne _ _ _ _ (by decide), dictGet_addOpt_ne _ _ _ _ (by decide),
        dictGet_addOpt_self _ _ _ (by rfl)]
      rfl
    · rw [dictGet_addOpt_ne _ _ _ _ (by decide), dictGet_addOpt_ne _ _ _ _ (by decide),
        dictGet_addOpt_ne _ _ _ _ (by decide), dictGet_addOpt_ne _ _ _ _ (by decide),
        dictGet_addOpt_ne _ _ _ _ (by decide), dictGet_addOpt_self _ _ _ ?side]
      · rfl
      case side => rw [dictGet_addOpt_ne _ _ _ _ (by decide)]; rfl
    · rw [dictGet_addOpt_ne _ _ _ _ (by decide), dictGet_addOpt_ne _ _ _ _ (by decide),
        dictGet_addOpt_ne _ _ _ _ (by decide), dictGet_addOpt_ne _ _ _ _ (by decide),
        dictGet_addOpt_self _ _ _ ?side2]
      · rfl
      case side2 =>
        rw [dictGet_addOpt_ne _ _ _ _ (by decide), dictGet_addOpt_ne _ _ _ _ (by decide)]
        rfl
    · rw [dictGet_addOpt_ne _ _ _ _ (by decide), dictGet_addOpt_ne _ _ _ _ (by decide),
        dictGet_addOpt_ne _ _ _ _ (by decide), dictGet_addOpt_self _ _ _ ?side3]
      · rfl
      case side3 =>
        rw [dictGet_addOpt_ne _ _ _ _ (by decide), dictGet_addOpt_ne _ _ _ _ (by decide),
          dictGet_addOpt_ne _ _ _ _ (by decide)]
        rfl
    · rw [dictGet_addOpt_ne _ _ _ _ (by decide), dictGet_addOpt_ne _ _ _ _ (by decide),
        dictGet_addOpt_self _ _ _ ?side4]
      · rfl
      case side4 =>
        rw [dictGet_addOpt_ne _ _ _ _ (by decide), dictGet_addOpt_ne _ _ _ _ (by decide),
          dictGet_addOpt_ne _ _ _ _ (by decide), dictGet_addOpt_ne _ _ _ _ (by decide)]
        rfl
    · rw [dictGet_addOpt_ne _ _ _ _ (by decide), dictGet_addOpt_self _ _ _ ?side5]
      · rfl
      case side5 =>
        rw [dictGet_addOpt_ne _ _ _ _ (by decide), dictGet_addOpt_ne _ _ _ _ (by decide),
          dictGet_addOpt_ne _ _ _ _ (by decide), dictGet_addOpt_ne _ _ _ _ (by decide),
          dictGet_addOpt_ne _ _ _ _ (by decide)]
        rfl
    · rw [dictGet_addOpt_self _ _ _ ?side6]
      · rfl
      case side6 =>
        rw [dictGet_addOpt_ne _ _ _ _ (by decide), dictGet_addOpt_ne _ _ _ _ (by decide),
          dictGet_addOpt_ne _ _ _ _ (by decide), dictGet_addOpt_ne _ _ _ _ (by decide),
          dictGet_addOpt_ne _ _ _ _ (by decide), dictGet_addOpt_ne _ _ _ _ (by decide)]
        rfl
  · unfold buildPayload
    rw [dictHasKey_update]
    have hbase : dictHasKey (addOpt (addOpt (addOpt (addOpt (addOpt (addOpt (addOpt
        [("model", a.model), ("messages", a.messages), ("stream", Json.bool a.stream)]
        "max_tokens" a.max_tokens) "provider" a.provider) "temperature" a.temperature)
        "top_p" a.top_p) "frequency_penalty" a.frequency_penalty)
        "presence_penalty" a.presence_penalty) "stop" a.stop) "stream" = true := by
      rw [dictHasKey_addOpt_ne _ _ _ _ (by decide), dictHasKey_addOpt_ne _ _ _ _ (by decide),
        dictHasKey_addOpt_ne _ _ _ _ (by decide), dictHasKey_addOpt_ne _ _ _ _ (by decide),
        dictHasKey_addOpt_ne _ _ _ _ (by decide), dictHasKey_addOpt_ne _ _ _ _ (by decide),
        dictHasKey_addOpt_ne _ _ _ _ (by decide)]
      rfl
    rw [hbase]
    rfl
  · intro hnd k v hkv
    exact dictGet_update_of_some _ hnd hkv

/-- Concrete create call: temperature explicitly 0, everything else omitted,
with extra named fields overriding stream. -/
def c6WitArgs : CreateArgs :=
  { model := Json.str "openai/gpt-4.1"
    messages := Json.arr [Json.obj [("role", Json.str "user"), ("content", Json.str "hello")]]
    max_tokens := none
    stream := false
    provider := none
    temperature := some (Json.num 0)
    top_p := none
    frequency_penalty := none
    presence_penalty := none
    stop := none
    kwargs := [("stream", Json.bool true), ("custom_field", Json.str "x")] }

/-- C6 witness: an explicitly supplied zero temperature appears with value 0,
an omitted max_tokens contributes no key, stream is present, and the extra
field overrides stream. -/
theorem c6_payload_construction_witness :
    dictGet (buildPayload c6WitArgs) "temperature" = some (Json.num 0)
    ∧ dictGet (buildPayload c6WitArgs) "max_tokens" = none
    ∧ dictHasKey (buildPayload c6WitArgs) "stream" = true
    ∧ dictGet (buildPayload c6WitArgs) "stream" = some (Json.bool true) := by
  have h := c6_payload_construction c6WitArgs
  have hdisj : ∀ p ∈ c6WitArgs.kwargs, p.1 ∉ optionalParamNames := by decide
  refine ⟨?_, ?_, h.2.1, ?_⟩
  · exact (h.1 hdisj "temperature" (by decide)).trans rfl
  · exact (h.1 hdisj "max_tokens" (by decide)).trans rfl
  · exact h.2.2 (by decide) "stream" (Json.bool true) rfl

/-- C4: for every finite list of input lines whose selected payloads all
decode to chunks, the full run of the stream parser produces, in order,
exactly the CompletionChunk decodings of the lines that, after trimming,
begin with `data: `, whose payload is not the sentinel, and whose payload
parses as JSON, up to but not including the first [DONE] sentinel or source
exhaustion; blank, non-data and unparseable lines are skipped without
terminating, and the run ends normally. -/
theorem c4_stream_line_selection (lines : List String)
    (h : ∀ p ∈ selectDataLines lines,
      ((Json.parse p).bind ChatCompletionChunk.ofJson).isSome = true) :
    (collectStream lines).1.map some
      = (selectDataLines lines).map
          (fun p => (Json.parse p).bind ChatCompletionChunk.ofJson)
    ∧ (collectStream lines).2 = StreamEnd.done := by
  induction lines with
  | nil => exact ⟨rfl, rfl⟩
  | cons l rest ih =>
    by_cases hl : l = ""
    · subst hl
      have e1 : collectStream ("" :: rest) = collectStream rest := rfl
      have e2 : selectDataLines ("" :: rest) = selectDataLines rest := rfl
      rw [e1, e2]
      exact ih (fun p hp => h p (by rw [e2]; exact hp))
    · by_cases hsw : pyStartsWith (pyStrip l) "data: " = true
      · by_cases hdone : pyStrip (pyDrop (pyStrip l) 6) = "[DONE]"
        · have e1 : collectStream (l :: rest) = ([], StreamEnd.done) := by
            simp only [collectStream, hl, hsw, hdone]
            simp
          have e2 : selectDataLines (l :: rest) = [] := by
            simp only [selectDataLines, hsw, hdone]
            simp
          rw [e1, e2]
          exact ⟨rfl, rfl⟩
        · cases hp : Json.parse (pyDrop (pyStrip l) 6) with
          | none =>
            have e1 : collectStream (l :: rest) = collectStream rest := by
              simp only [collectStream, hl, hsw, hdone, hp]
              simp
            have e2 : selectDataLines (l :: rest) = selectDataLines rest := by
              simp only [selectDataLines, hsw, hdone, hp]
              simp
            rw [e1, e2]
            exact ih (fun p hpm => h p (by rw [e2]; exact hpm))
          | some j =>
            have e2 : selectDataLines (l :: rest) =
                pyDrop (pyStrip l) 6 :: selectDataLines rest := by
              simp only [selectDataLines, hsw, hdone, hp]
              simp
            have hsome := h (pyDrop (pyStrip l) 6) (by rw [e2]; exact List.mem_cons_self _ _)
            rw [hp] at hsome
            simp only [Option.some_bind] at hsome
            cases hc : ChatCompletionChunk.ofJson j with
            | none => rw [hc] at hsome; simp at hsome
            | some ch =>
              have e1 : collectStream (l :: rest) =
                  (ch :: (collectStream rest).1, (collectStream rest).2) := by
                simp only [collectStream, hl, hsw, hdone, hp, hc]
                simp
              have ihh := ih (fun p hpm => h p (by rw [e2]; exact List.mem_cons_of_mem _ hpm))
              rw [e1, e2]
              refine ⟨?_, ihh.2⟩
              simp only [List.map_cons, hp, Option.some_bind, hc, ihh.1]
      · have e1 : collectStream (l :: rest) = collectStream rest := by
          simp only [collectStream, hl, hsw]
          simp
        have e2 : selectDataLines (l :: rest) = selectDataLines rest := by
          simp only [selectDataLines, hsw]
          simp
        rw [e1, e2]
        exact ih (fun p hpm => h p (by rw [e2]; exact hpm))

/-- Input lines from the spec's streaming examples: a valid chunk, a
malformed line, the sentinel, and a trailing line past the sentinel. -/
def c4WitLines : List String :=
  ["data: \x7b\"choices\":[\x7b\"delta\":\x7b\"content\":\"Hi\"\x7d\x7d]\x7d",
    "", "not-data", "data: \x7bnot json", "data: [DONE]", "data: \x7b\"x\": 1\x7d"]

/-- C4 witness: on the concrete line list, the produced chunks are exactly the
decodings of the selected payloads, and the run ends normally. -/
theorem c4_stream_line_selection_witness :
    (collectStream c4WitLines).1.map some
      = (selectDataLines c4WitLines).map
          (fun p => (Json.parse p).bind ChatCompletionChunk.ofJson)
    ∧ (collectStream c4WitLines).2 = StreamEnd.done :=
  c4_stream_line_selection c4WitLines (by decide)

/-- Two-chunk line source for the early-stop scenario. -/
def c8Lines : List String :=
  ["data: \x7b\"id\": \"a\"\x7d", "data: \x7b\"id\": \"b\"\x7d"]

/-- C8 counterexample: a consumer pulls one element from the session and stops
early; the claim says the session is then in the terminal DONE state and
re-iterating yields no elements, yet calling __iter__ and __next__ again
produces a further chunk, because __iter__ installs a fresh generator over the
still-open response and nothing recorded a terminal state. -/
theorem c8_counterexample :
    isChunk ((Session.make c8Lines).iterS.nextS).1 = true
    ∧ isChunk (((Session.make c8Lines).iterS.nextS).2.iterS.nextS).1 = true :=
  ⟨rfl, rfl⟩

/-- C8 (amended): termination through the sentinel or source exhaustion does
make the session terminal: whenever a resumption of the generator signals
end-of-sequence, it leaves the source closed, and on a session whose source is
closed, re-iterating yields end-of-sequence without error, leaves the source
unchanged, and every further pull again yields end-of-sequence.  A consumer
that merely stops pulling, however, does not transition the session to a
terminal state (see the counterexample). -/
theorem c8_terminal_after_close :
    (∀ ls : List String, (streamNextAux ls).1 = PullResult.stop →
      (streamNextAux ls).2.closed = true)
    ∧ (∀ sess : Session, sess.src.closed = true →
      (sess.iterS.nextS).1 = PullResult.stop
      ∧ (sess.iterS.nextS).2.src = sess.src
      ∧ ((sess.iterS.nextS).2.nextS).1 = PullResult.stop) := by
  constructor
  · intro ls
    induction ls with
    | nil => intro _; rfl
    | cons l rest ih =>
      intro hstop
      by_cases hl : l = ""
      · subst hl
        exact ih hstop
      · by_cases hsw : pyStartsWith (pyStrip l) "data: " = true
        · by_cases hdone : pyStrip (pyDrop (pyStrip l) 6) = "[DONE]"
          · have e1 : streamNextAux (l :: rest) = (PullResult.stop, ⟨rest, true⟩) := by
              simp only [streamNextAux, hl, hsw, hdone]
              simp
            rw [e1]
          · cases hp : Json.parse (pyDrop (pyStrip l) 6) with
            | none =>
              have e1 : streamNextAux (l :: rest) = streamNextAux rest := by
                simp only [streamNextAux, hl, hsw, hdone, hp]
                simp
              rw [e1] at hstop ⊢
              exact ih hstop
            | some j =>
              cases hc : ChatCompletionChunk.ofJson j with
              | none =>
                have e1 : streamNextAux (l :: rest) = (PullResult.errored, ⟨rest, true⟩) := by
                  simp only [streamNextAux, hl, hsw, hdone, hp, hc]
                  simp
                rw [e1]
              | some ch =>
                have e1 : streamNextAux (l :: rest) = (PullResult.chunk ch, ⟨rest, false⟩) := by
                  simp only [streamNextAux, hl, hsw, hdone, hp, hc]
                  simp
                rw [e1] at hstop
                exact PullResult.noConfusion hstop
        · have e1 : streamNextAux (l :: rest) = streamNextAux rest := by
            simp only [streamNextAux, hl, hsw]
            simp
          rw [e1] at hstop ⊢
          exact ih hstop
  · intro sess hclosed
    have hnext : sess.iterS.nextS = (PullResult.stop, ⟨sess.src, some false⟩) := by
      simp [Session.nextS, Session.iterS, streamNext, hclosed, isChunk]
    rw [hnext]
    exact ⟨rfl, rfl, rfl⟩

/-- C8 witness: on a session whose source was closed (the sentinel already
consumed) with lines remaining past the sentinel, re-iteration and every
further pull yield end-of-sequence, and a generator resumption that hit the
sentinel left the source closed. -/
theorem c8_terminal_after_close_witness :
    ((Session.mk ⟨["data: trailing"], true⟩ none).iterS.nextS).1 = PullResult.stop
    ∧ (((Session.mk ⟨["data: trailing"], true⟩ none).iterS.nextS).2.nextS).1 = PullResult.stop
    ∧ (streamNextAux ["data: [DONE]"]).2.closed = true := by
  have h := c8_terminal_after_close.2 (Session.mk ⟨["data: trailing"], true⟩ none) rfl
  exact ⟨h.1, h.2.2, c8_terminal_after_close.1 ["data: [DONE]"] rfl⟩
